import Mathlib

/-!
# CSV contact ingestion: parser and directory watcher

A shallow embedding of `contact.go` (`ParseCsvContactData`) and of the event
loop of `main.go` (the `fileMap` claim set and the per-file goroutine),
followed by the properties established about them.

Conventions of the embedding.

* A Go `string` is its sequence of bytes (`GoString`); `len` and slicing count
  bytes, as they do in Go.
* A call that can return an error or raise a run-time panic returns
  `Except Fault _`: `Fault.returned e` is a `return nil, err`, and
  `Fault.panic p` is a run-time panic (index or slice bounds).
* `int` is 64 bits wide; the loop counter and the parsed identifier stay far
  from the limits, so they are `Nat` and `Int`.
* Calls to `INFO` and `ERROR` only print a log line and are left out.
-/

namespace ContactCsv

/-! ## Strings -/

/-- A Go string: a sequence of bytes, each a natural number below 256. -/
abbrev GoString := List Nat

/-- The bytes of a source literal made of ASCII characters. -/
def ascii (s : String) : GoString := s.toList.map Char.toNat

/-- An `error` value, identified by its text. -/
abbrev GoError := GoString

/-- The run-time panics the parser can raise. -/
inductive Panic where
  | indexOutOfRange (index length : Nat)
  | sliceOutOfRange (high length : Nat)
deriving DecidableEq, Repr

/-- How a call ends when it does not produce its value. -/
inductive Fault where
  | returned (err : GoError)
  | panic (p : Panic)
deriving DecidableEq, Repr

/-- Indexing `xs[k]`, which panics when `k` is out of range. -/
def index (xs : List GoString) (k : Nat) : Except Fault GoString :=
  match xs.get? k with
  | some s => .ok s
  | none => .error (.panic (.indexOutOfRange k xs.length))

/-- Assignment `xs[k] = v`, which panics when `k` is out of range. -/
def setIndex (xs : List GoString) (k : Nat) (v : GoString) : Except Fault (List GoString) :=
  if k < xs.length then .ok (xs.set k v)
  else .error (.panic (.indexOutOfRange k xs.length))

/-- Slice `s[0:high]`, which panics when `high` exceeds `len(s)`. -/
def sliceTo (s : GoString) (high : Nat) : Except Fault GoString :=
  if high ≤ s.length then .ok (s.take high)
  else .error (.panic (.sliceOutOfRange high s.length))

/-- Go `strings.HasSuffix`. -/
def HasSuffix (s suffix : GoString) : Bool :=
  suffix.length ≤ s.length && s.drop (s.length - suffix.length) == suffix

/-- Go `strings.TrimSuffix`. -/
def TrimSuffix (s suffix : GoString) : GoString :=
  if HasSuffix s suffix then s.take (s.length - suffix.length) else s

/-! ## `regexp.MatchString` for the two patterns of the parser -/

/-- One position of a pattern: the class `[0-9]` or a literal byte. -/
inductive Atom where
  | digit
  | lit (b : Nat)
deriving DecidableEq, Repr

/-- A compiled pattern: a sequence of single-byte positions. -/
abbrev Pattern := List Atom

/-- Whether byte `b` is an ASCII decimal digit. -/
def isDigit (b : Nat) : Bool := 48 ≤ b && b ≤ 57

/-- Whether a byte is accepted at a pattern position. -/
def Atom.accepts : Atom → Nat → Bool
  | .digit, b => isDigit b
  | .lit c, b => b == c

/-- The pattern matches a prefix of the input. -/
def matchHere : Pattern → GoString → Bool
  | [], _ => true
  | _ :: _, [] => false
  | a :: p, b :: s => a.accepts b && matchHere p s

/-- The pattern matches somewhere in the input: a pattern without `^` and `$`
is searched for at every start position. The search is byte by byte: the
digits and the hyphen are single bytes that never occur inside a longer UTF-8
sequence, so this agrees with the rune by rune search of the library. -/
def matchAnywhere (p : Pattern) : GoString → Bool
  | [] => matchHere p []
  | b :: s => matchHere p (b :: s) || matchAnywhere p s

/-- Go `regexp.MatchString`. Both patterns of the parser compile, so the
returned error is always nil. -/
def MatchString (p : Pattern) (s : GoString) : Except Fault Bool :=
  .ok (matchAnywhere p s)

/-- The pattern `[0-9]{8}`. -/
def idPattern : Pattern := List.replicate 8 .digit

/-- The pattern `[0-9]{3}-[0-9]{3}-[0-9]{4}`; 45 is the hyphen. -/
def phonePattern : Pattern :=
  List.replicate 3 .digit ++ [.lit 45] ++ List.replicate 3 .digit ++ [.lit 45]
    ++ List.replicate 4 .digit

/-! ## `strconv.ParseInt(s, 10, 64)` -/

/-- The two causes carried by a `*strconv.NumError`. -/
inductive NumCause where
  | ErrSyntax
  | ErrRange
deriving DecidableEq, Repr

/-- The digit loop of `strconv.ParseUint` in base 10 with 64 bits: `n` is the
value read so far and `(2^64 - 1) / 10 + 1` is the library's `cutoff`. A byte
that is not a digit is a syntax error; a value above `2^64 - 1` is a range
error, reported as soon as it is reached, together with the largest value. -/
def parseUintLoop : GoString → Nat → Nat × Option NumCause
  | [], n => (n, none)
  | c :: s, n =>
    if isDigit c then
      if (2 ^ 64 - 1) / 10 + 1 ≤ n then (2 ^ 64 - 1, some .ErrRange)
      else if 2 ^ 64 - 1 < n * 10 + (c - 48) then (2 ^ 64 - 1, some .ErrRange)
      else parseUintLoop s (n * 10 + (c - 48))
    else (0, some .ErrSyntax)

/-- Go `strconv.ParseUint(s, 10, 64)`: the value and the error, nil as `none`. -/
def ParseUint (s : GoString) : Nat × Option NumCause :=
  if s = [] then (0, some .ErrSyntax) else parseUintLoop s 0

/-- Go `strconv.ParseInt(s, 10, 64)`: an optional sign (43 is `+`, 45 is `-`),
then `ParseUint`, then the check against the signed range. Returns the value
and the error, nil as `none`. -/
def ParseInt (s : GoString) : Int × Option NumCause :=
  match s with
  | [] => (0, some .ErrSyntax)
  | c :: rest =>
    let neg := c == 45
    let digits := if c == 43 || c == 45 then rest else c :: rest
    match ParseUint digits with
    | (_, some .ErrSyntax) => (0, some .ErrSyntax)
    | (un, _) =>
      if !neg && 2 ^ 63 ≤ un then (2 ^ 63 - 1, some .ErrRange)
      else if neg && 2 ^ 63 < un then (-(2 ^ 63), some .ErrRange)
      else (if neg then -(un : Int) else (un : Int), none)

/-- Go `Error()` of the two causes. -/
def NumCause.text : NumCause → GoString
  | .ErrSyntax => ascii "invalid syntax"
  | .ErrRange => ascii "value out of range"

/-- Go `(*strconv.NumError).Error()` for an error of `ParseInt` on input `num`.
`Quote` stands for `strconv.Quote`, which is taken as a parameter. -/
def numErrorText (Quote : GoString → GoString) (num : GoString) (cause : NumCause) :
    GoString :=
  ascii "strconv.ParseInt: parsing " ++ Quote num ++ ascii ": " ++ cause.text

/-- What `strconv.Quote` returns on printable ASCII input that holds neither a
double quote nor a backslash: the input between double quotes (byte 34). Used
where a concrete `Quote` is needed. -/
def plainQuote (s : GoString) : GoString := [34] ++ s ++ [34]

/-! ## Data model of `contact.go` and `main.go` -/

def COL_INTERNAL_ID : Nat := 0
def COL_FIRST_NAME : Nat := 1
def COL_MIDDLE_NAME : Nat := 2
def COL_LAST_NAME : Nat := 3
def COL_PHONE_NUM : Nat := 4

/-- Go `Contact`. -/
structure Contact where
  Id : Int
  First : GoString
  Middle : GoString
  Last : GoString
  Phone : GoString
deriving DecidableEq, Repr

/-- Go `CsvErrorRecord`: a row, its line and its validation messages. -/
structure CsvErrorRecord where
  Line : Nat
  Fields : List GoString
  Errors : List GoString
deriving DecidableEq, Repr

/-- Go `ContactCsvData`. -/
structure ContactCsvData where
  Records : List Contact
  Errors : List CsvErrorRecord
deriving DecidableEq, Repr

/-- Go `NewContactCsvData`. -/
def NewContactCsvData : ContactCsvData := { Records := [], Errors := [] }

/-- Go `NewCsvErrorRecord`. -/
def NewCsvErrorRecord (line : Nat) (fields : List GoString) : CsvErrorRecord :=
  { Line := line, Fields := fields, Errors := [] }

/-- The message of the identifier format check. -/
def msgInternalId : GoString := ascii "INTERNAL_ID must be an 8-digit integer."

/-- The message of the phone format check. -/
def msgPhoneNum : GoString := ascii "PHONE_NUM must be in the format ###-###-####."

/-- The message of a failed `ParseInt` on the identifier `num`; the text names
PHONE_NUM, as the source does. -/
def msgParse (Quote : GoString → GoString) (num : GoString) (cause : NumCause) : GoString :=
  ascii "Failed to parse PHONE_NUM: " ++ numErrorText Quote num cause

/-! ## `ParseCsvContactData` -/

/-- What one call of `reader.Read()` yields before end of input: a record or
an error other than `io.EOF`. -/
inductive ReadResult where
  | record (fields : List GoString)
  | failure (err : GoError)
deriving DecidableEq, Repr

/-- The variables that live across iterations of the read loop. -/
structure LoopState where
  i : Nat
  result : ContactCsvData
deriving DecidableEq, Repr

/-- Lines 77-106: the three checks on a row. Returns `fail`, `id` and
`tmpError` as they stand at line 108. -/
def validate (Quote : GoString → GoString) (tmpError : CsvErrorRecord)
    (records : List GoString) : Except Fault (Bool × Int × CsvErrorRecord) := do
  let fail := false
  let isMatch ← MatchString idPattern (← index records COL_INTERNAL_ID)
  let (fail, tmpError) :=
    if !isMatch then (true, { tmpError with Errors := tmpError.Errors ++ [msgInternalId] })
    else (fail, tmpError)
  let num ← index records COL_INTERNAL_ID
  let (id, err) := ParseInt num
  let (fail, tmpError) :=
    match err with
    | some cause =>
      (true, { tmpError with Errors := tmpError.Errors ++ [msgParse Quote num cause] })
    | none => (fail, tmpError)
  let isMatch ← MatchString phonePattern (← index records COL_PHONE_NUM)
  let (fail, tmpError) :=
    if !isMatch then (true, { tmpError with Errors := tmpError.Errors ++ [msgPhoneNum] })
    else (fail, tmpError)
  return (fail, id, tmpError)

/-- Lines 115-117 and their two repetitions: cut field `k` to 14 bytes when it
has at least 14. -/
def truncateField (records : List GoString) (k : Nat) : Except Fault (List GoString) := do
  if 14 ≤ (← index records k).length then
    setIndex records k (← sliceTo (← index records k) 14)
  else
    return records

/-- Lines 67-134: the body of the read loop for a record that was read without
error. -/
def loopBody (Quote : GoString → GoString) (st : LoopState) (records : List GoString) :
    Except Fault LoopState :=
  if st.i = 0 then
    .ok { st with i := st.i + 1 }
  else do
    let i := st.i + 1
    let tmpError := NewCsvErrorRecord i records
    let (fail, id, tmpError) ← validate Quote tmpError records
    if fail then
      return { i := i, result := { st.result with Errors := st.result.Errors ++ [tmpError] } }
    let records ← truncateField records COL_FIRST_NAME
    let records ← truncateField records COL_MIDDLE_NAME
    let records ← truncateField records COL_LAST_NAME
    let c : Contact :=
      { Id := id
        First := ← index records COL_FIRST_NAME
        Middle := ← index records COL_MIDDLE_NAME
        Last := ← index records COL_LAST_NAME
        Phone := ← index records COL_PHONE_NUM }
    return { i := i, result := { st.result with Records := st.result.Records ++ [c] } }

/-- Lines 58-135: the read loop over what the reader yields; the end of the
list is `io.EOF`. -/
def runLoop (Quote : GoString → GoString) : List ReadResult → LoopState → Except Fault LoopState
  | [], st => .ok st
  | .failure err :: _, _ => .error (.returned err)
  | .record records :: rest, st =>
    match loopBody Quote st records with
    | .ok st1 => runLoop Quote rest st1
    | .error f => .error f

/-- Go `ParseCsvContactData`. The argument is what `os.Open(filename)` gives:
an error, or a file, given as the results of the successive `reader.Read()`
calls on it. -/
def ParseCsvContactData (Quote : GoString → GoString)
    (file : Except GoError (List ReadResult)) : Except Fault ContactCsvData :=
  match file with
  | .error err => .error (.returned err)
  | .ok reads =>
    match runLoop Quote reads { i := 0, result := NewContactCsvData } with
    | .ok st => .ok st.result
    | .error f => .error f


/-! ## Input conditions in the words of the specification -/

/-- The field is exactly 8 decimal digits. -/
def isEightDigits (s : GoString) : Bool := s.length == 8 && s.all isDigit

/-- The field has the form `###-###-####`: three digits, a hyphen, three
digits, a hyphen, four digits, and nothing else. -/
def isPhoneForm (s : GoString) : Bool :=
  match s with
  | [a, b, c, h1, d, e, f, h2, g, h, i, j] =>
    isDigit a && isDigit b && isDigit c && h1 == 45 && isDigit d && isDigit e && isDigit f
      && h2 == 45 && isDigit g && isDigit h && isDigit i && isDigit j
  | _ => false

/-- The number written by a string of decimal digits. -/
def decimalValue (s : GoString) : Nat := s.foldl (fun n b => n * 10 + (b - 48)) 0

/-! ## The outcome of one data row, stated declaratively -/

/-- Whether at least one of the three checks of lines 79-106 fails on a row with
identifier `id` and phone `phone`. -/
def rowFails (id phone : GoString) : Bool :=
  !matchAnywhere idPattern id || (ParseInt id).2.isSome || !matchAnywhere phonePattern phone

/-- The messages of a row with identifier `id` and phone `phone`: one per failed
check, in the order of the checks. -/
def rowMessages (Quote : GoString → GoString) (id phone : GoString) : List GoString :=
  (if matchAnywhere idPattern id then [] else [msgInternalId])
    ++ (match (ParseInt id).2 with
        | some cause => [msgParse Quote id cause]
        | none => [])
    ++ (if matchAnywhere phonePattern phone then [] else [msgPhoneNum])

/-- The contact built from an accepted row. -/
def rowContact (id first middle last phone : GoString) : Contact :=
  { Id := (ParseInt id).1, First := first.take 14, Middle := middle.take 14,
    Last := last.take 14, Phone := phone }

/-- The loop variables after a data row of at least five fields. -/
def rowStep (Quote : GoString → GoString) (st : LoopState)
    (id first middle last phone : GoString) (rest : List GoString) : LoopState :=
  if rowFails id phone then
    { i := st.i + 1
      result :=
        { st.result with
          Errors := st.result.Errors ++
            [{ Line := st.i + 1, Fields := id :: first :: middle :: last :: phone :: rest,
               Errors := rowMessages Quote id phone }] } }
  else
    { i := st.i + 1
      result :=
        { st.result with
          Records := st.result.Records ++ [rowContact id first middle last phone] } }

/-- Whether a row is rejected: `rowFails` on its identifier and phone fields. -/
def rowRejected (r : List GoString) : Bool := rowFails (r.getD 0 []) (r.getD 4 [])

/-- The contact built from the five leading fields of a row. -/
def contactOfRow (r : List GoString) : Contact :=
  rowContact (r.getD 0 []) (r.getD 1 []) (r.getD 2 []) (r.getD 3 []) (r.getD 4 [])

/-- The error records of a run of data rows, the first of which comes after
`i` rows already read. -/
def errorsOfRows (Quote : GoString → GoString) : Nat → List (List GoString) → List CsvErrorRecord
  | _, [] => []
  | i, r :: rs =>
    (if rowRejected r then
      [{ Line := i + 1, Fields := r, Errors := rowMessages Quote (r.getD 0 []) (r.getD 4 []) }]
     else [])
      ++ errorsOfRows Quote (i + 1) rs

/-- How a stored name relates to the input field it comes from, with every
length counted in bytes: at most 14 bytes, a byte prefix of the field, the
field itself when it has at most 14 bytes, and its first 14 bytes when it has
20. -/
def StoredName (stored input : GoString) : Prop :=
  stored.length ≤ 14 ∧ stored <+: input ∧ (input.length ≤ 14 → stored = input) ∧
    (input.length = 20 → stored = input.take 14 ∧ stored.length = 14)

/-- The number of characters of a UTF-8 text: its bytes that do not continue a
multi-byte sequence, that is, the bytes outside 128..191. -/
def charCount (s : GoString) : Nat :=
  (s.filter (fun b => !(decide (128 ≤ b) && decide (b ≤ 191)))).length

/-- Whether a row breaks at least one validation rule as the specification
words them: the identifier is exactly 8 decimal digits, the identifier parses
as an integer, the phone has the form `###-###-####`. -/
def rowBreaksRule (r : List GoString) : Bool :=
  !isEightDigits (r.getD 0 []) || (ParseInt (r.getD 0 [])).2.isSome
    || !isPhoneForm (r.getD 4 [])

/-- The field holds 8 consecutive decimal digits somewhere. -/
def containsEightDigits (s : GoString) : Bool :=
  s.tails.any (fun t => isEightDigits (t.take 8))

/-- The field holds a run of the form `###-###-####` somewhere. -/
def containsPhoneForm (s : GoString) : Bool :=
  s.tails.any (fun t => isPhoneForm (t.take 12))

/-- The rows about which the partition property says nothing: the identifier
holds 8 consecutive digits without being exactly 8 digits, or the phone holds a
`###-###-####` run without being exactly one. -/
def rowLeftOpen (r : List GoString) : Bool :=
  (containsEightDigits (r.getD 0 []) && !isEightDigits (r.getD 0 []))
    || (containsPhoneForm (r.getD 4 []) && !isPhoneForm (r.getD 4 []))

/-! ## The watcher of `main.go`: claim set and processing goroutine -/

/-- What the calls made by one processing goroutine return: the file system and
the JSON encoder seen from that goroutine. -/
structure TaskWorld where
  /-- `os.Stat(ev.Name)`: the file mode, or an error. -/
  stat : Except GoError Nat
  /-- `os.Open(ev.Name)` inside the parser, with what the reader then yields. -/
  file : Except GoError (List ReadResult)
  /-- `json.MarshalIndent(contacts.Records, ...)`. -/
  marshalRecords : List Contact → Except GoError GoString
  /-- `json.MarshalIndent(contacts.Errors, ...)`. -/
  marshalErrors : List CsvErrorRecord → Except GoError GoString
  /-- `ioutil.WriteFile(path, data, mode)`: the returned error, nil as `none`. -/
  writeFile : GoString → GoString → Nat → Option GoError

/-- One call of `ioutil.WriteFile` with the error it returned, which the
goroutine drops. -/
structure WriteCall where
  path : GoString
  data : GoString
  mode : Nat
  err : Option GoError
deriving DecidableEq, Repr

/-- What a finished goroutine leaves behind: the `WriteFile` call for the
records, if it was made, the one for the error records, if it was made, and
the claim set. -/
structure TaskResult where
  recordsWrite : Option WriteCall
  errorsWrite : Option WriteCall
  fileMap : Finset GoString

/-- Lines 150-158: the records are written when there is at least one and they
serialise; returns the write made and `shouldDelete`. -/
def writeRecords (w : TaskWorld) (outputDir filename : GoString) (mode : Nat)
    (contacts : ContactCsvData) : Option WriteCall × Bool :=
  if contacts.Records.length > 0 then
    match w.marshalRecords contacts.Records with
    | .error _ => (none, false)
    | .ok byteData =>
      let path := outputDir ++ ascii "/" ++ filename
      (some { path := path, data := byteData, mode := mode,
              err := w.writeFile path byteData mode },
        true)
  else (none, false)

/-- Lines 161-168: the error records are written when there is at least one and
they serialise. -/
def writeErrors (w : TaskWorld) (errorDir filename : GoString) (mode : Nat)
    (contacts : ContactCsvData) : Option WriteCall :=
  if contacts.Errors.length > 0 then
    match w.marshalErrors contacts.Errors with
    | .error _ => none
    | .ok byteData =>
      let path := errorDir ++ ascii "/" ++ filename
      some { path := path, data := byteData, mode := mode,
             err := w.writeFile path byteData mode }
  else none

/-- Lines 137-179: the goroutine started for the event name `name`, run to its
end against the claim set `fileMap`. A panic of the parser ends it with that
panic. -/
def processFile (Quote : GoString → GoString) (w : TaskWorld) (outputDir errorDir : GoString)
    (name : GoString) (fileMap : Finset GoString) : Except Fault TaskResult :=
  let filename := TrimSuffix name (ascii ".csv") ++ ascii ".json"
  match w.stat with
  | .error _ => .ok { recordsWrite := none, errorsWrite := none, fileMap := fileMap }
  | .ok mode =>
    match ParseCsvContactData Quote w.file with
    | .error (.panic p) => .error (.panic p)
    | .error (.returned _) =>
      .ok { recordsWrite := none, errorsWrite := none, fileMap := fileMap.erase name }
    | .ok contacts =>
      let (recordsWrite, shouldDelete) := writeRecords w outputDir filename mode contacts
      let errorsWrite := writeErrors w errorDir filename mode contacts
      if shouldDelete then
        .ok { recordsWrite := recordsWrite, errorsWrite := errorsWrite, fileMap := fileMap }
      else
        .ok { recordsWrite := recordsWrite, errorsWrite := errorsWrite,
              fileMap := fileMap.erase name }

/-- Whether the goroutine produced the output artifact: the `WriteFile` call
for the records was made and returned no error. -/
def outputProduced (r : TaskResult) : Prop :=
  ∃ c, r.recordsWrite = some c ∧ c.err = none

/-- The state shared by the event loop and its goroutines: the claim set and
the names held by the goroutines that were started and have not finished, one
entry per goroutine. -/
structure Watcher where
  fileMap : Finset GoString
  inflight : List GoString

/-- The watcher at start: nothing claimed, nothing running. -/
def Watcher.init : Watcher := { fileMap := ∅, inflight := [] }

/-- Lines 117-179 seen from the loop: the handling of one event with name
`name`, up to the start of the goroutine. -/
def handleEvent (s : Watcher) (name : GoString) : Watcher :=
  if !HasSuffix name (ascii ".csv") then s
  else if name ∈ s.fileMap then s
  else { fileMap := insert name s.fileMap, inflight := s.inflight ++ [name] }

/-- The goroutine at position `k` of `inflight` runs to its end in world `w`.
There is no next state when `k` names no goroutine or the goroutine panics. -/
def finishTask (Quote : GoString → GoString) (outputDir errorDir : GoString) (s : Watcher)
    (k : Nat) (w : TaskWorld) : Option Watcher :=
  match s.inflight.get? k with
  | none => none
  | some name =>
    match processFile Quote w outputDir errorDir name s.fileMap with
    | .ok r => some { fileMap := r.fileMap, inflight := s.inflight.eraseIdx k }
    | .error _ => none

/-- The steps of the watcher: the loop handles an event, or a started goroutine
finishes. -/
inductive Step (Quote : GoString → GoString) (outputDir errorDir : GoString) :
    Watcher → Watcher → Prop where
  | event (s : Watcher) (name : GoString) : Step Quote outputDir errorDir s (handleEvent s name)
  | finish (s s1 : Watcher) (k : Nat) (w : TaskWorld)
      (h : finishTask Quote outputDir errorDir s k w = some s1) :
      Step Quote outputDir errorDir s s1

/-- The states the watcher can be in. -/
inductive Reachable (Quote : GoString → GoString) (outputDir errorDir : GoString) :
    Watcher → Prop where
  | init : Reachable Quote outputDir errorDir Watcher.init
  | step (s s1 : Watcher) (hs : Reachable Quote outputDir errorDir s)
      (h : Step Quote outputDir errorDir s s1) : Reachable Quote outputDir errorDir s1

/-- The invariant behind the claim set: started goroutines hold distinct names,
all of them claimed. -/
def Watcher.Consistent (s : Watcher) : Prop :=
  s.inflight.Nodup ∧ ∀ n ∈ s.inflight, n ∈ s.fileMap

/-! ## Sample inputs -/

/-- A header row with the five column names. -/
def sampleHeader : List GoString :=
  [ascii "INTERNAL_ID", ascii "FIRST_NAME", ascii "MIDDLE_NAME", ascii "LAST_NAME",
    ascii "PHONE_NUM"]

/-- A well-formed row. -/
def rowScenarioA : List GoString :=
  [ascii "12345678", ascii "Jo", ascii "", ascii "Smith", ascii "555-123-4567"]

/-- A row with a four-digit identifier. -/
def rowScenarioB : List GoString :=
  [ascii "1234", ascii "Jo", ascii "", ascii "Smith", ascii "555-123-4567"]

/-- A well-formed row with a first name of 20 bytes. -/
def rowLongName : List GoString :=
  [ascii "12345678", ascii "Jonathansonlongnames", ascii "", ascii "Smith", ascii "555-123-4567"]

/-- A row whose identifier has nine digits. -/
def rowNineDigits : List GoString :=
  [ascii "123456789", ascii "Jo", ascii "", ascii "Smith", ascii "555-123-4567"]

/-- A row whose phone field starts with four digits. -/
def rowLongPhone : List GoString :=
  [ascii "12345678", ascii "Jo", ascii "", ascii "Smith", ascii "1555-123-4567"]

/-- A row whose identifier is a letter followed by eight digits. -/
def rowLetterId : List GoString :=
  [ascii "x12345678", ascii "Jo", ascii "", ascii "Smith", ascii "555-123-4567"]

/-- A name of 14 characters in 15 bytes: `abcdefghijklm` followed by an e with
acute accent, which is the two bytes 195 and 169 in UTF-8. -/
def nameAccented : GoString := ascii "abcdefghijklm" ++ [195, 169]

/-- A well-formed row whose first name is `nameAccented`. -/
def rowAccentedName : List GoString :=
  [ascii "12345678", nameAccented, ascii "", ascii "Smith", ascii "555-123-4567"]

/-- A row whose identifier has ten digits. -/
def rowTenDigits : List GoString :=
  [ascii "0123456789", ascii "Jo", ascii "", ascii "Smith", ascii "555-123-4567"]

/-- A header row with two columns. -/
def twoColumnHeader : List GoString := [ascii "INTERNAL_ID", ascii "PHONE_NUM"]

/-- A data row with two fields. -/
def twoColumnRow : List GoString := [ascii "12345678", ascii "555-123-4567"]

/-- A header row with one column. -/
def oneColumnHeader : List GoString := [ascii "INTERNAL_ID"]

/-- A data row with one field. -/
def oneColumnRow : List GoString := [ascii "12345678"]

/-- A goroutine's world in which the file is there and parses to one Contact,
the encoder works, and every write fails. -/
def worldWriteFails : TaskWorld :=
  { stat := .ok 420
    file := .ok [.record sampleHeader, .record rowScenarioA]
    marshalRecords := fun _ => .ok (ascii "[]")
    marshalErrors := fun _ => .ok (ascii "[]")
    writeFile := fun _ _ _ => some (ascii "no space left on device") }

/-- A goroutine's world in which the file is gone by the time it is looked at. -/
def worldStatFails : TaskWorld :=
  { stat := .error (ascii "no such file or directory")
    file := .error (ascii "no such file or directory")
    marshalRecords := fun _ => .ok (ascii "[]")
    marshalErrors := fun _ => .ok (ascii "[]")
    writeFile := fun _ _ _ => none }

/-! ## The loop body on one row -/

theorem validate_row (Quote : GoString → GoString) (tmpError : CsvErrorRecord)
    (id first middle last phone : GoString) (rest : List GoString) :
    validate Quote tmpError (id :: first :: middle :: last :: phone :: rest)
      = .ok (rowFails id phone, (ParseInt id).1,
          { tmpError with Errors := tmpError.Errors ++ rowMessages Quote id phone }) := by
  simp only [validate, index, MatchString, COL_INTERNAL_ID, COL_PHONE_NUM, List.get?,
    bind, Except.bind, pure, Except.pure, rowFails, rowMessages]
  cases h1 : matchAnywhere idPattern id <;> cases h2 : (ParseInt id).2 <;>
    cases h3 : matchAnywhere phonePattern phone <;> simp [h2]

theorem set_of_get? {α : Type} (l : List α) (k : Nat) (a : α) (h : l.get? k = some a) :
    l.set k a = l := by
  induction l generalizing k with
  | nil => rfl
  | cons x xs ih =>
    cases k with
    | zero => simp only [List.get?] at h; cases h; rfl
    | succ k => simp only [List.get?] at h; simp only [List.set, ih k h]

theorem truncateField_eq (records : List GoString) (k : Nat) (s : GoString)
    (h : records.get? k = some s) :
    truncateField records k = .ok (records.set k (s.take 14)) := by
  have hk : k < records.length := by
    rcases Nat.lt_or_ge k records.length with hlt | hge
    · exact hlt
    · rw [List.get?_eq_none.mpr hge] at h; cases h
  simp only [truncateField, index, h, bind, Except.bind, pure, Except.pure, sliceTo, setIndex]
  by_cases h14 : 14 ≤ s.length
  · simp [h14, hk]
  · simp only [h14, if_false]
    congr 1
    rw [List.take_of_length_le (by omega)]
    exact (set_of_get? records k s h).symm

theorem loopBody_header (Quote : GoString → GoString) (st : LoopState)
    (records : List GoString) (h : st.i = 0) :
    loopBody Quote st records = .ok { st with i := 1 } := by
  simp [loopBody, h]

theorem loopBody_row (Quote : GoString → GoString) (st : LoopState)
    (id first middle last phone : GoString) (rest : List GoString) (h : st.i ≠ 0) :
    loopBody Quote st (id :: first :: middle :: last :: phone :: rest)
      = .ok (rowStep Quote st id first middle last phone rest) := by
  have t1 := truncateField_eq (id :: first :: middle :: last :: phone :: rest) 1 first rfl
  have t2 := truncateField_eq (id :: first.take 14 :: middle :: last :: phone :: rest) 2
    middle rfl
  have t3 := truncateField_eq (id :: first.take 14 :: middle.take 14 :: last :: phone :: rest) 3
    last rfl
  simp only [List.set] at t1 t2 t3
  simp only [loopBody, h, if_false, validate_row, NewCsvErrorRecord, bind, Except.bind, pure,
    Except.pure, rowStep, List.nil_append, COL_FIRST_NAME, COL_MIDDLE_NAME, COL_LAST_NAME,
    COL_PHONE_NUM]
  cases hf : rowFails id phone
  · simp [t1, t2, t3, index, rowContact]
  · simp

theorem validate_short (Quote : GoString → GoString) (tmpError : CsvErrorRecord)
    (records : List GoString) (h : records.length < 5) :
    ∃ p, validate Quote tmpError records = .error (.panic p) := by
  match records, h with
  | [], _ => exact ⟨_, rfl⟩
  | [_], _ => exact ⟨.indexOutOfRange 4 1, by
      simp [validate, index, MatchString, COL_INTERNAL_ID, COL_PHONE_NUM, bind, Except.bind]⟩
  | [_, _], _ => exact ⟨.indexOutOfRange 4 2, by
      simp [validate, index, MatchString, COL_INTERNAL_ID, COL_PHONE_NUM, bind, Except.bind]⟩
  | [_, _, _], _ => exact ⟨.indexOutOfRange 4 3, by
      simp [validate, index, MatchString, COL_INTERNAL_ID, COL_PHONE_NUM, bind, Except.bind]⟩
  | [_, _, _, _], _ => exact ⟨.indexOutOfRange 4 4, by
      simp [validate, index, MatchString, COL_INTERNAL_ID, COL_PHONE_NUM, bind, Except.bind]⟩
  | _ :: _ :: _ :: _ :: _ :: _, h => simp at h; omega

theorem loopBody_short (Quote : GoString → GoString) (st : LoopState)
    (records : List GoString) (hi : st.i ≠ 0) (h : records.length < 5) :
    ∃ p, loopBody Quote st records = .error (.panic p) := by
  obtain ⟨p, hp⟩ := validate_short Quote (NewCsvErrorRecord (st.i + 1) records) records h
  exact ⟨p, by simp [loopBody, hi, hp, bind, Except.bind]⟩

theorem five_fields (records : List GoString) (h : 5 ≤ records.length) :
    ∃ id first middle last phone rest, records = id :: first :: middle :: last :: phone :: rest := by
  match records, h with
  | id :: first :: middle :: last :: phone :: rest, _ => exact ⟨id, first, middle, last, phone, rest, rfl⟩
  | [], h | [_], h | [_, _], h | [_, _, _], h | [_, _, _, _], h => simp at h

/-- A loop body that returns normally either skipped the header or handled a
row of at least five fields as `rowStep` says. -/
theorem loopBody_ok (Quote : GoString → GoString) (st st1 : LoopState)
    (records : List GoString) (h : loopBody Quote st records = .ok st1) :
    (st.i = 0 ∧ st1 = { st with i := 1 }) ∨
    (st.i ≠ 0 ∧ ∃ id first middle last phone rest,
      records = id :: first :: middle :: last :: phone :: rest ∧
      st1 = rowStep Quote st id first middle last phone rest) := by
  by_cases hi : st.i = 0
  · left
    rw [loopBody_header Quote st records hi] at h
    exact ⟨hi, (Except.ok.inj h).symm⟩
  · right
    refine ⟨hi, ?_⟩
    rcases Nat.lt_or_ge records.length 5 with hlt | hge
    · obtain ⟨p, hp⟩ := loopBody_short Quote st records hi hlt
      rw [hp] at h; cases h
    · obtain ⟨id, first, middle, last, phone, rest, rfl⟩ := five_fields records hge
      rw [loopBody_row Quote st id first middle last phone rest hi] at h
      exact ⟨id, first, middle, last, phone, rest, rfl, (Except.ok.inj h).symm⟩

/-! ## The library calls on well-formed fields -/

theorem parseUintLoop_digits (s : GoString) :
    ∀ n : Nat, s.all isDigit = true → (n + 1) * 10 ^ s.length ≤ 2 ^ 64 →
      parseUintLoop s n = (s.foldl (fun n b => n * 10 + (b - 48)) n, none) ∧
      s.foldl (fun n b => n * 10 + (b - 48)) n < (n + 1) * 10 ^ s.length := by
  induction s with
  | nil => intro n _ _; simp [parseUintLoop]
  | cons c s ih =>
    intro n hall hb
    simp only [List.all_cons, Bool.and_eq_true] at hall
    obtain ⟨hc, hs⟩ := hall
    have hc9 : c - 48 ≤ 9 := by
      simp only [isDigit, Bool.and_eq_true, decide_eq_true_eq] at hc; omega
    have hpow : 1 ≤ 10 ^ s.length := Nat.one_le_pow _ _ (by norm_num)
    have hb1 : (n + 1) * 10 * 10 ^ s.length ≤ 2 ^ 64 := by
      have : (n + 1) * 10 ^ (c :: s).length = (n + 1) * 10 * 10 ^ s.length := by
        simp only [List.length_cons, pow_succ]; ring
      rw [this] at hb; exact hb
    have hb2 : (n + 1) * 10 ≤ 2 ^ 64 :=
      le_trans (Nat.le_mul_of_pos_right _ hpow) hb1
    have hstep : (n * 10 + (c - 48) + 1) * 10 ^ s.length ≤ (n + 1) * 10 * 10 ^ s.length :=
      Nat.mul_le_mul_right _ (by omega)
    obtain ⟨ih1, ih2⟩ := ih (n * 10 + (c - 48)) hs (le_trans hstep hb1)
    have hn1 : ¬ ((2 ^ 64 - 1) / 10 + 1 ≤ n) := by omega
    have hn2 : ¬ (2 ^ 64 - 1 < n * 10 + (c - 48)) := by omega
    refine ⟨?_, ?_⟩
    · simp only [parseUintLoop, hc, if_true, hn1, hn2, if_false, List.foldl_cons]
      exact ih1
    · simp only [List.foldl_cons, List.length_cons, pow_succ]
      calc _ < (n * 10 + (c - 48) + 1) * 10 ^ s.length := ih2
        _ ≤ (n + 1) * 10 * 10 ^ s.length := hstep
        _ = (n + 1) * (10 ^ s.length * 10) := by ring

theorem ParseInt_eightDigits (id : GoString) (h : isEightDigits id = true) :
    ParseInt id = (((decimalValue id : Nat) : Int), none) := by
  simp only [isEightDigits, Bool.and_eq_true, beq_iff_eq] at h
  obtain ⟨hlen, hall⟩ := h
  obtain ⟨h1, h2⟩ := parseUintLoop_digits id 0 hall (by rw [hlen]; norm_num)
  rw [hlen] at h2
  change parseUintLoop id 0 = (decimalValue id, none) at h1
  change decimalValue id < (0 + 1) * 10 ^ 8 at h2
  have hlt : ¬ (2 ^ 63 ≤ decimalValue id) := by omega
  match id, hlen, hall, h1, hlt with
  | c :: rest, _, hall, h1, hlt =>
    have hc : isDigit c = true := by
      simp only [List.all_cons, Bool.and_eq_true] at hall; exact hall.1
    simp only [isDigit, Bool.and_eq_true, decide_eq_true_eq] at hc
    have e43 : (c == 43) = false := by simp; omega
    have e45 : (c == 45) = false := by simp; omega
    simp only [ParseInt, e43, e45, Bool.or_self, Bool.false_eq_true, if_false, ParseUint,
      List.cons_ne_nil, h1, Bool.not_false, Bool.true_and, decide_eq_true_eq, Bool.false_and,
      hlt]

theorem matchAnywhere_of_matchHere (p : Pattern) (s : GoString) (h : matchHere p s = true) :
    matchAnywhere p s = true := by
  cases s with
  | nil => simpa [matchAnywhere] using h
  | cons b s => simp [matchAnywhere, h]

theorem idPattern_eightDigits (id : GoString) (h : isEightDigits id = true) :
    matchAnywhere idPattern id = true := by
  simp only [isEightDigits, Bool.and_eq_true, beq_iff_eq] at h
  obtain ⟨hlen, hall⟩ := h
  apply matchAnywhere_of_matchHere
  match id, hlen, hall with
  | [a, b, c, d, e, f, g, i], _, hall =>
    simp only [List.all_cons, List.all_nil, Bool.and_eq_true] at hall
    simp [idPattern, List.replicate, matchHere, Atom.accepts, hall]

theorem phonePattern_phoneForm (phone : GoString) (h : isPhoneForm phone = true) :
    matchAnywhere phonePattern phone = true := by
  apply matchAnywhere_of_matchHere
  match phone, h with
  | [a, b, c, h1, d, e, f, h2, g, i, j, k], h =>
    simp only [isPhoneForm, Bool.and_eq_true, beq_iff_eq] at h
    simp [phonePattern, List.replicate, matchHere, Atom.accepts, h]

theorem rowFails_wellFormed (id phone : GoString) (hid : isEightDigits id = true)
    (hphone : isPhoneForm phone = true) : rowFails id phone = false := by
  simp [rowFails, idPattern_eightDigits id hid, phonePattern_phoneForm phone hphone,
    ParseInt_eightDigits id hid]

/-! ## The read loop -/

theorem runLoop_append (Quote : GoString → GoString) (a b : List ReadResult) :
    ∀ st, runLoop Quote (a ++ b) st =
      match runLoop Quote a st with
      | .ok st1 => runLoop Quote b st1
      | .error f => .error f := by
  induction a with
  | nil => intro st; simp [runLoop]
  | cons x a ih =>
    intro st
    cases x with
    | failure err => simp [runLoop]
    | record r =>
      simp only [List.cons_append, runLoop]
      cases hb : loopBody Quote st r with
      | error f => simp
      | ok st1 => exact ih st1

theorem loopBody_i (Quote : GoString → GoString) (st st1 : LoopState) (r : List GoString)
    (h : loopBody Quote st r = .ok st1) : st1.i = st.i + 1 := by
  rcases loopBody_ok Quote st st1 r h with ⟨h0, rfl⟩ | ⟨_, id, first, middle, last, phone, rest, _, rfl⟩
  · simp [h0]
  · simp only [rowStep]; split <;> rfl

theorem runLoop_i (Quote : GoString → GoString) (reads : List ReadResult) :
    ∀ st st1, runLoop Quote reads st = .ok st1 → st1.i = st.i + reads.length := by
  induction reads with
  | nil => intro st st1 h; simp only [runLoop] at h; cases h; rfl
  | cons x reads ih =>
    intro st st1 h
    cases x with
    | failure err => simp [runLoop] at h
    | record r =>
      simp only [runLoop] at h
      cases hb : loopBody Quote st r with
      | error f => simp [hb] at h
      | ok st2 =>
        simp only [hb] at h
        rw [ih st2 st1 h, loopBody_i Quote st st2 r hb, List.length_cons]; omega

/-- Parsing one more record after a non-empty input that parsed to `res`: the
loop body runs on it with counter `pre.length` and result `res`. -/
theorem ParseCsvContactData_snoc (Quote : GoString → GoString) (pre : List ReadResult)
    (res : ContactCsvData) (records : List GoString)
    (h : ParseCsvContactData Quote (.ok pre) = .ok res) :
    ParseCsvContactData Quote (.ok (pre ++ [.record records])) =
      match loopBody Quote { i := pre.length, result := res } records with
      | .ok st1 => .ok st1.result
      | .error f => .error f := by
  simp only [ParseCsvContactData] at h ⊢
  rw [runLoop_append]
  cases hr : runLoop Quote pre { i := 0, result := NewContactCsvData } with
  | error f => simp [hr] at h
  | ok st =>
    simp only [hr] at h
    have hi := runLoop_i Quote pre _ st hr
    simp only [Nat.zero_add] at hi
    have hres : st.result = res := Except.ok.inj h
    have hst : st = { i := pre.length, result := res } := by
      cases st; simp only at hi hres; simp [hi, hres]
    subst hst
    simp only [runLoop]
    cases loopBody Quote { i := pre.length, result := res } records <;> rfl

theorem runLoop_rows (Quote : GoString → GoString) (rows : List (List GoString)) :
    ∀ st : LoopState, st.i ≠ 0 → (∀ r ∈ rows, 5 ≤ r.length) →
      runLoop Quote (rows.map .record) st =
        .ok { i := st.i + rows.length
              result :=
                { Records := st.result.Records ++
                    (rows.filter (fun r => !rowRejected r)).map contactOfRow
                  Errors := st.result.Errors ++ errorsOfRows Quote st.i rows } } := by
  induction rows with
  | nil => intro st _ _; simp [runLoop, errorsOfRows]
  | cons r rows ih =>
    intro st hi h5
    obtain ⟨id, first, middle, last, phone, rest, rfl⟩ :=
      five_fields r (h5 r (List.mem_cons_self _ _))
    have h5' : ∀ r ∈ rows, 5 ≤ r.length := fun r hr => h5 r (List.mem_cons_of_mem _ hr)
    simp only [List.map_cons, runLoop, loopBody_row Quote st id first middle last phone rest hi]
    have hi' : (rowStep Quote st id first middle last phone rest).i ≠ 0 := by
      simp only [rowStep]; split <;> simp
    rw [ih _ hi' h5']
    cases hf : rowFails id phone <;>
      simp [rowStep, hf, rowRejected, contactOfRow, errorsOfRows, List.filter_cons,
        Nat.add_assoc, Nat.add_comm 1]

theorem rowMessages_ne_nil (Quote : GoString → GoString) (id phone : GoString)
    (h : rowFails id phone = true) : rowMessages Quote id phone ≠ [] := by
  simp only [rowFails, Bool.or_eq_true, Bool.not_eq_true', Option.isSome_iff_exists] at h
  simp only [rowMessages]
  rcases h with (h | ⟨c, h⟩) | h
  · simp [h]
  · simp [h]
  · simp [h]

theorem errorsOfRows_fields (Quote : GoString → GoString) (rows : List (List GoString)) :
    ∀ i, (errorsOfRows Quote i rows).map (·.Fields) = rows.filter rowRejected := by
  induction rows with
  | nil => intro i; rfl
  | cons r rows ih =>
    intro i
    cases hr : rowRejected r <;> simp [errorsOfRows, hr, ih, List.filter_cons]

theorem errorsOfRows_messages (Quote : GoString → GoString) (rows : List (List GoString)) :
    ∀ i, ∀ e ∈ errorsOfRows Quote i rows, e.Errors ≠ [] := by
  induction rows with
  | nil => intro i e he; simp [errorsOfRows] at he
  | cons r rows ih =>
    intro i e he
    simp only [errorsOfRows, List.mem_append] at he
    rcases he with he | he
    · cases hr : rowRejected r
      · simp [hr] at he
      · simp only [hr, if_true, List.mem_singleton] at he
        subst he
        exact rowMessages_ne_nil Quote _ _ hr
    · exact ih (i + 1) e he
theorem handleEvent_consistent (s : Watcher) (name : GoString) (h : s.Consistent) :
    (handleEvent s name).Consistent := by
  unfold handleEvent
  split
  · exact h
  · split
    · exact h
    · rename_i hmem
      refine ⟨?_, ?_⟩
      · simp only
        rw [List.nodup_append]
        refine ⟨h.1, List.nodup_singleton _, ?_⟩
        intro a ha hb
        simp only [List.mem_singleton] at hb
        subst hb
        exact hmem (h.2 _ ha)
      · intro n hn
        simp only [List.mem_append, List.mem_singleton] at hn
        rcases hn with hn | rfl
        · exact Finset.mem_insert_of_mem (h.2 n hn)
        · exact Finset.mem_insert_self _ _

theorem processFile_fileMap (Quote : GoString → GoString) (w : TaskWorld)
    (outputDir errorDir name : GoString) (fileMap : Finset GoString) (r : TaskResult)
    (h : processFile Quote w outputDir errorDir name fileMap = .ok r) :
    r.fileMap = fileMap ∨ r.fileMap = fileMap.erase name := by
  unfold processFile at h
  simp only at h
  split at h
  · cases h; left; rfl
  · split at h
    · cases h
    · cases h; right; rfl
    · split at h <;> cases h
      · left; rfl
      · right; rfl

theorem not_mem_eraseIdx_of_nodup {α : Type} (l : List α) :
    ∀ (k : Nat) (a : α), l.Nodup → l.get? k = some a → a ∉ l.eraseIdx k := by
  induction l with
  | nil => intro k a _ h; simp at h
  | cons x l ih =>
    intro k a hnd h
    rw [List.nodup_cons] at hnd
    cases k with
    | zero =>
      simp only [List.get?] at h
      cases h
      simpa using hnd.1
    | succ k =>
      simp only [List.get?] at h
      simp only [List.eraseIdx, List.mem_cons, not_or]
      refine ⟨?_, ih k a hnd.2 h⟩
      rintro rfl
      exact hnd.1 (List.get?_mem h)

theorem finishTask_consistent (Quote : GoString → GoString) (outputDir errorDir : GoString)
    (s s1 : Watcher) (k : Nat) (w : TaskWorld)
    (hf : finishTask Quote outputDir errorDir s k w = some s1) (h : s.Consistent) :
    s1.Consistent := by
  unfold finishTask at hf
  split at hf
  · cases hf
  · rename_i name hname
    split at hf
    · rename_i r hr
      cases hf
      refine ⟨List.Nodup.sublist (List.eraseIdx_sublist _ _) h.1, ?_⟩
      intro n hn
      have hn' : n ∈ s.inflight := (List.eraseIdx_sublist _ _).subset hn
      rcases processFile_fileMap Quote w outputDir errorDir name s.fileMap r hr with e | e
      · simp only [e]; exact h.2 n hn'
      · simp only [e]
        refine Finset.mem_erase.mpr ⟨?_, h.2 n hn'⟩
        rintro rfl
        exact not_mem_eraseIdx_of_nodup s.inflight k n h.1 hname hn
    · cases hf

theorem nodup_filter_eq_length (l : List GoString) (name : GoString) (h : l.Nodup) :
    (l.filter (fun n => decide (n = name))).length ≤ 1 := by
  induction l with
  | nil => simp
  | cons x l ih =>
    rw [List.nodup_cons] at h
    by_cases hx : x = name
    · subst hx
      have hnone : l.filter (fun n => decide (n = x)) = [] := by
        rw [List.filter_eq_nil_iff]
        intro a ha
        simp only [decide_eq_true_eq]
        rintro rfl
        exact h.1 ha
      simp [List.filter_cons, hnone]
    · simp only [List.filter_cons, hx, decide_False, Bool.false_eq_true, if_false]
      exact ih h.2

theorem reachable_consistent (Quote : GoString → GoString) (outputDir errorDir : GoString)
    (s : Watcher) (h : Reachable Quote outputDir errorDir s) : s.Consistent := by
  induction h with
  | init => exact ⟨List.nodup_nil, by intro n hn; simp [Watcher.init] at hn⟩
  | step s s1 _ hstep ih =>
    cases hstep
    · exact handleEvent_consistent _ _ ih
    · rename_i k w hf
      exact finishTask_consistent Quote outputDir errorDir s s1 k w hf ih

/-! ## Invariants of the read loop -/

theorem runLoop_records (Quote : GoString → GoString) (reads : List ReadResult) :
    ∀ st st1, runLoop Quote reads st = .ok st1 → ∀ c ∈ st1.result.Records,
      c ∈ st.result.Records ∨
      ∃ id first middle last phone rest,
        ReadResult.record (id :: first :: middle :: last :: phone :: rest) ∈
            (if st.i = 0 then reads.tail else reads) ∧
          rowFails id phone = false ∧ c = rowContact id first middle last phone := by
  induction reads with
  | nil => intro st st1 h c hc; simp only [runLoop] at h; cases h; exact Or.inl hc
  | cons x reads ih =>
    intro st st1 h c hc
    cases x with
    | failure err => simp [runLoop] at h
    | record r =>
      simp only [runLoop] at h
      cases hb : loopBody Quote st r with
      | error f => simp [hb] at h
      | ok st2 =>
        simp only [hb] at h
        have hi2 : st2.i ≠ 0 := by rw [loopBody_i Quote st st2 r hb]; omega
        rcases ih st2 st1 h c hc with hin | ⟨id, first, middle, last, phone, rest, hmem, hok, hc⟩
        · rcases loopBody_ok Quote st st2 r hb with
            ⟨_, rfl⟩ | ⟨hi, id, first, middle, last, phone, rest, rfl, rfl⟩
          · exact Or.inl hin
          · cases hf : rowFails id phone
            · simp only [rowStep, hf, Bool.false_eq_true, if_false, List.mem_append,
                List.mem_singleton] at hin
              rcases hin with hin | rfl
              · exact Or.inl hin
              · exact Or.inr ⟨id, first, middle, last, phone, rest, by simp [hi], hf, rfl⟩
            · simp only [rowStep, hf, if_true] at hin
              exact Or.inl hin
        · simp only [hi2, if_false] at hmem
          refine Or.inr ⟨id, first, middle, last, phone, rest, ?_, hok, hc⟩
          by_cases hi : st.i = 0
          · simpa [hi] using hmem
          · simp only [hi, if_false]; exact List.mem_cons_of_mem _ hmem

theorem runLoop_errors (Quote : GoString → GoString) (reads : List ReadResult) :
    ∀ st st1, runLoop Quote reads st = .ok st1 → ∀ e ∈ st1.result.Errors,
      e ∈ st.result.Errors ∨
      (st.i < e.Line ∧ 2 ≤ e.Line ∧ reads.get? (e.Line - st.i - 1) = some (.record e.Fields)) := by
  induction reads with
  | nil => intro st st1 h e he; simp only [runLoop] at h; cases h; exact Or.inl he
  | cons x reads ih =>
    intro st st1 h e he
    cases x with
    | failure err => simp [runLoop] at h
    | record r =>
      simp only [runLoop] at h
      cases hb : loopBody Quote st r with
      | error f => simp [hb] at h
      | ok st2 =>
        simp only [hb] at h
        have hi2 : st2.i = st.i + 1 := loopBody_i Quote st st2 r hb
        rcases ih st2 st1 h e he with hin | ⟨h1, h2, h3⟩
        · rcases loopBody_ok Quote st st2 r hb with
            ⟨_, rfl⟩ | ⟨hi, id, first, middle, last, phone, rest, rfl, rfl⟩
          · exact Or.inl hin
          · cases hf : rowFails id phone
            · simp only [rowStep, hf, Bool.false_eq_true, if_false] at hin
              exact Or.inl hin
            · simp only [rowStep, hf, if_true, List.mem_append, List.mem_singleton] at hin
              rcases hin with hin | rfl
              · exact Or.inl hin
              · refine Or.inr ⟨by simp, by simp only; omega, ?_⟩
                simp
        · rw [hi2] at h1 h3
          refine Or.inr ⟨by omega, h2, ?_⟩
          have : e.Line - st.i - 1 = (e.Line - (st.i + 1) - 1) + 1 := by omega
          rw [this, List.get?_cons_succ]
          exact h3

theorem runLoop_returns (Quote : GoString → GoString) (reads : List ReadResult) :
    ∀ st, (∀ r, ReadResult.record r ∈ reads → 5 ≤ r.length) →
      ((∃ st1, runLoop Quote reads st = .ok st1) ∨
        (∃ err, runLoop Quote reads st = .error (.returned err))) ∧
      ((∀ err, ReadResult.failure err ∉ reads) → ∃ st1, runLoop Quote reads st = .ok st1) := by
  induction reads with
  | nil => intro st _; exact ⟨Or.inl ⟨st, rfl⟩, fun _ => ⟨st, rfl⟩⟩
  | cons x reads ih =>
    intro st h5
    have h5' : ∀ r, ReadResult.record r ∈ reads → 5 ≤ r.length :=
      fun r hr => h5 r (List.mem_cons_of_mem _ hr)
    cases x with
    | failure err =>
      refine ⟨Or.inr ⟨err, rfl⟩, fun hno => ?_⟩
      exact absurd (List.mem_cons_self _ _) (hno err)
    | record r =>
      have hbody : ∃ st2, loopBody Quote st r = .ok st2 := by
        by_cases hi : st.i = 0
        · exact ⟨_, loopBody_header Quote st r hi⟩
        · obtain ⟨id, first, middle, last, phone, rest, rfl⟩ :=
            five_fields r (h5 r (List.mem_cons_self _ _))
          exact ⟨_, loopBody_row Quote st id first middle last phone rest hi⟩
      obtain ⟨st2, hb⟩ := hbody
      obtain ⟨ih1, ih2⟩ := ih st2 h5'
      simp only [runLoop, hb]
      exact ⟨ih1, fun hno => ih2 (fun err he => hno err (List.mem_cons_of_mem _ he))⟩

theorem isEightDigits_of_matchHere (t : GoString) (h : matchHere idPattern t = true) :
    isEightDigits (t.take 8) = true := by
  match t, h with
  | a :: b :: c :: d :: e :: f :: g :: i :: rest, h =>
    simp only [idPattern, List.replicate, matchHere, Atom.accepts, Bool.and_eq_true] at h
    simp [isEightDigits, h]
  | [], h | [_], h | [_, _], h | [_, _, _], h | [_, _, _, _], h | [_, _, _, _, _], h
  | [_, _, _, _, _, _], h | [_, _, _, _, _, _, _], h =>
    simp [idPattern, List.replicate, matchHere] at h

theorem isPhoneForm_of_matchHere (t : GoString) (h : matchHere phonePattern t = true) :
    isPhoneForm (t.take 12) = true := by
  match t, h with
  | a :: b :: c :: h1 :: d :: e :: f :: h2 :: g :: i :: j :: k :: rest, h =>
    simp only [phonePattern, List.replicate, List.cons_append, List.nil_append, matchHere,
      Atom.accepts, Bool.and_eq_true, beq_iff_eq] at h
    simp [isPhoneForm, h]
  | [], h | [_], h | [_, _], h | [_, _, _], h | [_, _, _, _], h | [_, _, _, _, _], h
  | [_, _, _, _, _, _], h | [_, _, _, _, _, _, _], h | [_, _, _, _, _, _, _, _], h
  | [_, _, _, _, _, _, _, _, _], h | [_, _, _, _, _, _, _, _, _, _], h
  | [_, _, _, _, _, _, _, _, _, _, _], h =>
    simp [phonePattern, List.replicate, matchHere] at h

theorem containsEightDigits_of_match (s : GoString) (h : matchAnywhere idPattern s = true) :
    containsEightDigits s = true := by
  induction s with
  | nil => simp [matchAnywhere, idPattern, List.replicate, matchHere] at h
  | cons b s ih =>
    simp only [matchAnywhere, Bool.or_eq_true] at h
    simp only [containsEightDigits, List.tails, List.any_cons, Bool.or_eq_true]
    rcases h with h | h
    · exact Or.inl (isEightDigits_of_matchHere _ h)
    · exact Or.inr (ih h)

theorem containsPhoneForm_of_match (s : GoString) (h : matchAnywhere phonePattern s = true) :
    containsPhoneForm s = true := by
  induction s with
  | nil => simp [matchAnywhere, phonePattern, List.replicate, matchHere] at h
  | cons b s ih =>
    simp only [matchAnywhere, Bool.or_eq_true] at h
    simp only [containsPhoneForm, List.tails, List.any_cons, Bool.or_eq_true]
    rcases h with h | h
    · exact Or.inl (isPhoneForm_of_matchHere _ h)
    · exact Or.inr (ih h)

/-- A rejected row breaks a rule of the specification. -/
theorem rowBreaksRule_of_rejected (r : List GoString) (h : rowRejected r = true) :
    rowBreaksRule r = true := by
  simp only [rowRejected, rowFails, Bool.or_eq_true, Bool.not_eq_true'] at h
  simp only [rowBreaksRule, Bool.or_eq_true, Bool.not_eq_true']
  rcases h with (h | h) | h
  · left; left
    cases he : isEightDigits (r.getD 0 []) with
    | false => rfl
    | true => rw [idPattern_eightDigits _ he] at h; cases h
  · left; right; exact h
  · right
    cases hp : isPhoneForm (r.getD 4 []) with
    | false => rfl
    | true => rw [phonePattern_phoneForm _ hp] at h; cases h

/-- A row that breaks a rule is rejected, unless it is one of the rows left
open. -/
theorem rejected_of_rowBreaksRule (r : List GoString) (hopen : rowLeftOpen r = false)
    (h : rowBreaksRule r = true) : rowRejected r = true := by
  simp only [rowLeftOpen, Bool.or_eq_false_iff, Bool.and_eq_false_iff, Bool.not_eq_false'] at hopen
  simp only [rowBreaksRule, Bool.or_eq_true, Bool.not_eq_true'] at h
  simp only [rowRejected, rowFails, Bool.or_eq_true, Bool.not_eq_true']
  obtain ⟨hid, hph⟩ := hopen
  rcases h with (h | h) | h
  · left; left
    cases hm : matchAnywhere idPattern (r.getD 0 []) with
    | false => rfl
    | true =>
      rcases hid with hid | hid
      · rw [containsEightDigits_of_match _ hm] at hid; cases hid
      · rw [hid] at h; cases h
  · left; right; exact h
  · right
    cases hm : matchAnywhere phonePattern (r.getD 4 []) with
    | false => rfl
    | true =>
      rcases hph with hph | hph
      · rw [containsPhoneForm_of_match _ hm] at hph; cases hph
      · rw [hph] at h; cases h

theorem take14_stored (input : GoString) : StoredName (input.take 14) input := by
  refine ⟨?_, List.take_prefix _ _, ?_, ?_⟩
  · simp only [List.length_take]; omega
  · intro h; exact List.take_of_length_le h
  · intro h; exact ⟨rfl, by simp only [List.length_take]; omega⟩

/-! ## Properties of `ParseCsvContactData` -/

/-- C1, evaluation at a failing input: the identifier `123456789` is not
exactly 8 decimal digits, yet the row gets no message and one Contact with
Id 123456789 is produced, because the pattern is searched for anywhere in the
field. -/
theorem nine_digit_identifier_accepted :
    isEightDigits (ascii "123456789") = false ∧
    ParseCsvContactData plainQuote (.ok [.record sampleHeader, .record rowNineDigits]) =
      .ok { Records := [{ Id := 123456789, First := ascii "Jo", Middle := ascii "",
                          Last := ascii "Smith", Phone := ascii "555-123-4567" }],
            Errors := [] } :=
  ⟨by decide, rfl⟩

/-- C2, evaluation at a failing input: the phone `1555-123-4567` is not of the
form three digits, hyphen, three digits, hyphen, four digits, yet the row gets
no message and one Contact is produced, because the pattern is searched for
anywhere in the field. -/
theorem four_digit_area_phone_accepted :
    isPhoneForm (ascii "1555-123-4567") = false ∧
    ParseCsvContactData plainQuote (.ok [.record sampleHeader, .record rowLongPhone]) =
      .ok { Records := [{ Id := 12345678, First := ascii "Jo", Middle := ascii "",
                          Last := ascii "Smith", Phone := ascii "1555-123-4567" }],
            Errors := [] } :=
  ⟨by decide, rfl⟩

/-- C3: a data row whose identifier is exactly 8 decimal digits and whose phone
has the form `###-###-####`, read after rows that parsed to `res`, adds no error
record and appends exactly one Contact: its Id is the number written by the
identifier, its Phone is the phone field, and its names are the first 14 bytes
of the name fields. -/
theorem valid_row_appends_one_contact (Quote : GoString → GoString) (pre : List ReadResult)
    (res : ContactCsvData) (id first middle last phone : GoString) (rest : List GoString)
    (hpre : pre ≠ [])
    (hres : ParseCsvContactData Quote (.ok pre) = .ok res)
    (hid : isEightDigits id = true) (hphone : isPhoneForm phone = true) :
    ParseCsvContactData Quote
        (.ok (pre ++ [.record (id :: first :: middle :: last :: phone :: rest)])) =
      .ok { Records := res.Records ++
              [{ Id := (decimalValue id : Nat), First := first.take 14,
                 Middle := middle.take 14, Last := last.take 14, Phone := phone }],
            Errors := res.Errors } := by
  have hi : ({ i := pre.length, result := res } : LoopState).i ≠ 0 := by
    simpa using hpre
  rw [ParseCsvContactData_snoc Quote pre res _ hres, loopBody_row Quote _ _ _ _ _ _ _ hi]
  simp [rowStep, rowFails_wellFormed id phone hid hphone, rowContact,
    ParseInt_eightDigits id hid]

/-- C3, scenario A: the row `12345678, Jo, (empty), Smith, 555-123-4567` after a
header gives the single Contact with Id 12345678 and no error record. -/
theorem scenario_A_accepted :
    ParseCsvContactData plainQuote (.ok [.record sampleHeader, .record rowScenarioA]) =
      .ok { Records := [{ Id := 12345678, First := ascii "Jo", Middle := ascii "",
                          Last := ascii "Smith", Phone := ascii "555-123-4567" }],
            Errors := [] } :=
  valid_row_appends_one_contact plainQuote [.record sampleHeader] NewContactCsvData
    (ascii "12345678") (ascii "Jo") (ascii "") (ascii "Smith") (ascii "555-123-4567") []
    (by simp) rfl (by decide) (by decide)

/-- C4, counterexample: the first name `abcdefghijklm` followed by an e with
acute accent has 14 characters, so the claim stores it unchanged; it has 15
bytes, and the accepted row stores its first 14 bytes, which end inside the
last character and differ from the name. -/
theorem accented_name_cut_inside_character :
    charCount nameAccented = 14 ∧
    ParseCsvContactData plainQuote (.ok [.record sampleHeader, .record rowAccentedName]) =
      .ok { Records := [{ Id := 12345678, First := ascii "abcdefghijklm" ++ [195],
                          Middle := ascii "", Last := ascii "Smith",
                          Phone := ascii "555-123-4567" }],
            Errors := [] } ∧
    ascii "abcdefghijklm" ++ [195] ≠ nameAccented :=
  ⟨by decide, rfl, by decide⟩

/-- C4, amended: every Contact in the Records returned by the parser comes from
a data row of the input, and each of its First, Middle and Last has at most 14
bytes, is a byte prefix of the row's field, equals it when the field has at
most 14 bytes, and is exactly its first 14 bytes when the field has 20 bytes. -/
theorem stored_names_truncated (Quote : GoString → GoString) (reads : List ReadResult)
    (res : ContactCsvData) (h : ParseCsvContactData Quote (.ok reads) = .ok res)
    (c : Contact) (hc : c ∈ res.Records) :
    ∃ id first middle last phone rest,
      ReadResult.record (id :: first :: middle :: last :: phone :: rest) ∈ reads.tail ∧
        StoredName c.First first ∧ StoredName c.Middle middle ∧ StoredName c.Last last := by
  simp only [ParseCsvContactData] at h
  cases hr : runLoop Quote reads { i := 0, result := NewContactCsvData } with
  | error f => simp [hr] at h
  | ok st =>
    simp only [hr] at h
    have hres : st.result = res := Except.ok.inj h
    rw [← hres] at hc
    rcases runLoop_records Quote reads _ st hr c hc with
      hin | ⟨id, first, middle, last, phone, rest, hmem, _, rfl⟩
    · simp [NewContactCsvData] at hin
    · exact ⟨id, first, middle, last, phone, rest, by simpa using hmem,
        take14_stored first, take14_stored middle, take14_stored last⟩

/-- C4, amended, at a row with a first name of 20 bytes: the stored names are
cuts of the fields of a data row. -/
theorem long_name_stored_cut :
    ∃ id first middle last phone rest,
      ReadResult.record (id :: first :: middle :: last :: phone :: rest) ∈
          [ReadResult.record sampleHeader, ReadResult.record rowLongName].tail ∧
        StoredName (ascii "Jonathansonlon") first ∧ StoredName (ascii "") middle ∧
          StoredName (ascii "Smith") last :=
  stored_names_truncated plainQuote [.record sampleHeader, .record rowLongName]
    { Records := [{ Id := 12345678, First := ascii "Jonathansonlon", Middle := ascii "",
                    Last := ascii "Smith", Phone := ascii "555-123-4567" }],
      Errors := [] }
    rfl _ (List.mem_singleton.mpr rfl)

/-- C5, counterexample: a two-column file is read without a read error, yet its
data row yields neither a Contact nor an error record: the phone column is
indexed out of range and the parse ends in a panic; and a row whose identifier
has ten digits breaks the identifier rule, yet it is in Records and not in
Errors. -/
theorem two_column_file_has_no_partition :
    (ParseCsvContactData plainQuote (.ok [.record twoColumnHeader, .record twoColumnRow]) =
        .error (.panic (.indexOutOfRange 4 2)) ∧
      ¬ ∃ res, ParseCsvContactData plainQuote
            (.ok [.record twoColumnHeader, .record twoColumnRow]) = .ok res ∧
          res.Records.length + res.Errors.length = 1) ∧
    (rowBreaksRule rowTenDigits = true ∧
      ParseCsvContactData plainQuote (.ok [.record sampleHeader, .record rowTenDigits]) =
        .ok { Records := [{ Id := 123456789, First := ascii "Jo", Middle := ascii "",
                            Last := ascii "Smith", Phone := ascii "555-123-4567" }],
              Errors := [] }) := by
  refine ⟨⟨rfl, ?_⟩, by decide, rfl⟩
  rintro ⟨res, h, _⟩
  cases h

/-- C5, amended: for an input read without a read error in which every data row
(every row after the first) has at least 5 fields, the parse returns a result
in which each data row stands in exactly one of Records and Errors: the counts
add up to the number of data rows, and one decision per row, `inErrors`, splits
the data rows into Errors, in file order and with their fields unmodified, and
Records, in file order. A row in Errors breaks at least one validation rule,
and a row that breaks a rule is in Errors unless it is one of the rows left
open, whose identifier or phone holds the required digits inside a longer
field. Every error record has a non-empty message list. -/
theorem rows_partitioned (Quote : GoString → GoString) (rows : List (List GoString))
    (h5 : ∀ r ∈ rows.tail, 5 ≤ r.length) :
    ∃ res, ParseCsvContactData Quote (.ok (rows.map .record)) = .ok res ∧
      res.Records.length + res.Errors.length = rows.tail.length ∧
      (∃ inErrors : List GoString → Bool,
        res.Errors.map (fun e => e.Fields) = rows.tail.filter inErrors ∧
        res.Records = (rows.tail.filter (fun r => !inErrors r)).map contactOfRow ∧
        (∀ r, inErrors r = true → rowBreaksRule r = true) ∧
        (∀ r, rowLeftOpen r = false → rowBreaksRule r = true → inErrors r = true)) ∧
      ∀ e ∈ res.Errors, e.Errors ≠ [] := by
  cases rows with
  | nil =>
    exact ⟨NewContactCsvData, rfl, rfl,
      ⟨rowRejected, rfl, rfl, rowBreaksRule_of_rejected, rejected_of_rowBreaksRule⟩,
      by simp [NewContactCsvData]⟩
  | cons header rows =>
    simp only [List.tail_cons] at h5 ⊢
    have hrun := runLoop_rows Quote rows { i := 1, result := NewContactCsvData } (by simp) h5
    simp only [NewContactCsvData, List.nil_append] at hrun
    refine ⟨{ Records := (rows.filter (fun r => !rowRejected r)).map contactOfRow,
              Errors := errorsOfRows Quote 1 rows }, ?_, ?_,
            ⟨rowRejected, errorsOfRows_fields Quote rows 1, rfl, rowBreaksRule_of_rejected,
              rejected_of_rowBreaksRule⟩,
            errorsOfRows_messages Quote rows 1⟩
    · have hhead := loopBody_header Quote { i := 0, result := NewContactCsvData } header rfl
      simp only [NewContactCsvData] at hhead
      simp only [ParseCsvContactData, List.map_cons, runLoop, NewContactCsvData, hhead, hrun]
    · have hl : (errorsOfRows Quote 1 rows).length = (rows.filter rowRejected).length := by
        rw [← errorsOfRows_fields Quote rows 1, List.length_map]
      have hsum := List.length_eq_length_filter_add (l := rows) rowRejected
      simp only [List.length_map, hl]
      omega

/-- C5, amended, at a header followed by an accepted and a rejected row. -/
theorem rows_partitioned_sample :
    ∃ res, ParseCsvContactData plainQuote
        (.ok ([sampleHeader, rowScenarioA, rowScenarioB].map .record)) = .ok res ∧
      res.Records.length + res.Errors.length =
        [sampleHeader, rowScenarioA, rowScenarioB].tail.length ∧
      (∃ inErrors : List GoString → Bool,
        res.Errors.map (fun e => e.Fields) =
          [sampleHeader, rowScenarioA, rowScenarioB].tail.filter inErrors ∧
        res.Records =
          ([sampleHeader, rowScenarioA, rowScenarioB].tail.filter (fun r => !inErrors r)).map
            contactOfRow ∧
        (∀ r, inErrors r = true → rowBreaksRule r = true) ∧
        (∀ r, rowLeftOpen r = false → rowBreaksRule r = true → inErrors r = true)) ∧
      ∀ e ∈ res.Errors, e.Errors ≠ [] :=
  rows_partitioned plainQuote [sampleHeader, rowScenarioA, rowScenarioB] (by decide)

/-- C6, counterexample: a file with a one-column header and a single one-column
data row yields no outcome at all, neither a Contact nor an error record: the
parse ends in a panic. -/
theorem one_column_file_has_no_outcome :
    ParseCsvContactData plainQuote (.ok [.record oneColumnHeader, .record oneColumnRow]) =
        .error (.panic (.indexOutOfRange 4 1)) ∧
    ¬ ∃ res, ParseCsvContactData plainQuote
          (.ok [.record oneColumnHeader, .record oneColumnRow]) = .ok res ∧
        ((∃ c, res.Records = [c] ∧ res.Errors = []) ∨
          (∃ e, res.Records = [] ∧ res.Errors = [e] ∧ e.Line = 2)) := by
  refine ⟨rfl, ?_⟩
  rintro ⟨res, h, _⟩
  cases h

/-- C6, amended: the first row is discarded whatever its content; a rejected
row at 1-based position `pre.length + 1`, at least 2, gets one error record
whose Line is that position, and every error record of a result has a Line of
at least 2 that is the position of the row with its fields; a header followed
by a single data row of at least 5 fields yields exactly one outcome, one
Contact or one error record with Line 2; an empty input and a header-only input
return empty Records and empty Errors with no error. -/
theorem header_skipped_lines_numbered (Quote : GoString → GoString) :
    (∀ (header header1 : List GoString) (rest : List ReadResult),
      ParseCsvContactData Quote (.ok (.record header :: rest)) =
        ParseCsvContactData Quote (.ok (.record header1 :: rest))) ∧
    (∀ (pre : List ReadResult) (res : ContactCsvData)
        (id first middle last phone : GoString) (rest : List GoString),
      pre ≠ [] → ParseCsvContactData Quote (.ok pre) = .ok res → rowFails id phone = true →
      ParseCsvContactData Quote
          (.ok (pre ++ [.record (id :: first :: middle :: last :: phone :: rest)])) =
        .ok { Records := res.Records,
              Errors := res.Errors ++
                [{ Line := pre.length + 1,
                   Fields := id :: first :: middle :: last :: phone :: rest,
                   Errors := rowMessages Quote id phone }] }) ∧
    (∀ (reads : List ReadResult) (res : ContactCsvData),
      ParseCsvContactData Quote (.ok reads) = .ok res →
      ∀ e ∈ res.Errors, 2 ≤ e.Line ∧ reads.get? (e.Line - 1) = some (.record e.Fields)) ∧
    (∀ header row : List GoString, 5 ≤ row.length →
      ∃ res, ParseCsvContactData Quote (.ok [.record header, .record row]) = .ok res ∧
        ((∃ c, res.Records = [c] ∧ res.Errors = []) ∨
          (∃ e, res.Records = [] ∧ res.Errors = [e] ∧ e.Line = 2))) ∧
    ParseCsvContactData Quote (.ok []) = .ok { Records := [], Errors := [] } ∧
    (∀ header : List GoString,
      ParseCsvContactData Quote (.ok [.record header]) = .ok { Records := [], Errors := [] }) := by
  have hhead : ∀ header : List GoString,
      loopBody Quote { i := 0, result := NewContactCsvData } header =
        .ok { i := 1, result := NewContactCsvData } :=
    fun header => loopBody_header Quote _ header rfl
  refine ⟨?_, ?_, ?_, ?_, rfl, ?_⟩
  · intro header header1 rest
    simp only [ParseCsvContactData, runLoop, hhead]
  · intro pre res id first middle last phone rest hpre hres hf
    have hi : ({ i := pre.length, result := res } : LoopState).i ≠ 0 := by
      simpa using hpre
    rw [ParseCsvContactData_snoc Quote pre res _ hres, loopBody_row Quote _ _ _ _ _ _ _ hi]
    simp [rowStep, hf]
  · intro reads res h e he
    simp only [ParseCsvContactData] at h
    cases hr : runLoop Quote reads { i := 0, result := NewContactCsvData } with
    | error f => simp [hr] at h
    | ok st =>
      simp only [hr] at h
      have hres : st.result = res := Except.ok.inj h
      rw [← hres] at he
      rcases runLoop_errors Quote reads _ st hr e he with hin | ⟨_, h2, h3⟩
      · simp [NewContactCsvData] at hin
      · exact ⟨h2, by simpa using h3⟩
  · intro header row h5
    obtain ⟨id, first, middle, last, phone, rest, rfl⟩ := five_fields row h5
    have hrow := loopBody_row Quote { i := 1, result := NewContactCsvData } id first middle
      last phone rest (by simp)
    cases hf : rowFails id phone
    · refine ⟨{ Records := [rowContact id first middle last phone], Errors := [] }, ?_,
        Or.inl ⟨_, rfl, rfl⟩⟩
      simp only [ParseCsvContactData, runLoop, hhead, hrow]
      simp [rowStep, hf, NewContactCsvData]
    · refine ⟨{ Records := [],
                Errors := [{ Line := 2, Fields := id :: first :: middle :: last :: phone :: rest,
                             Errors := rowMessages Quote id phone }] }, ?_,
        Or.inr ⟨_, rfl, rfl, rfl⟩⟩
      simp only [ParseCsvContactData, runLoop, hhead, hrow]
      simp [rowStep, hf, NewContactCsvData]
  · intro header
    simp only [ParseCsvContactData, runLoop, hhead]
    rfl

/-- C6, amended, at a header followed by the single row of scenario B, which
has five fields. -/
theorem scenario_B_single_outcome :
    ∃ res, ParseCsvContactData plainQuote
        (.ok [.record sampleHeader, .record rowScenarioB]) = .ok res ∧
      ((∃ c, res.Records = [c] ∧ res.Errors = []) ∨
        (∃ e, res.Records = [] ∧ res.Errors = [e] ∧ e.Line = 2)) :=
  (header_skipped_lines_numbered plainQuote).2.2.2.1 sampleHeader rowScenarioB (by decide)

/-- C7, evaluation at a failing input: the identifier `x12345678` is
non-numeric (`ParseInt` fails on it), yet the rejected row carries the
parse-failure message alone, without the identifier-format message, because the
pattern finds eight digits inside the field. -/
theorem letter_identifier_gets_one_message :
    (ParseInt (ascii "x12345678")).2 = some .ErrSyntax ∧
    isEightDigits (ascii "x12345678") = false ∧
    ParseCsvContactData plainQuote (.ok [.record sampleHeader, .record rowLetterId]) =
      .ok { Records := [],
            Errors := [{ Line := 2, Fields := rowLetterId,
                         Errors := [ascii
                           "Failed to parse PHONE_NUM: strconv.ParseInt: parsing \"x12345678\": invalid syntax"] }] } :=
  ⟨rfl, by decide, rfl⟩

/-- C10: when every row of the input has at least 5 fields, the parse never
panics on an index or a slice: it returns a result or a read error, and it
returns a result when no read fails; a field is sliced to 14 bytes only when it
has at least 14, so cutting a field that exists never panics. -/
theorem five_field_rows_never_panic (Quote : GoString → GoString) (reads : List ReadResult)
    (h5 : ∀ r, ReadResult.record r ∈ reads → 5 ≤ r.length) :
    ((∃ res, ParseCsvContactData Quote (.ok reads) = .ok res) ∨
      (∃ err, ParseCsvContactData Quote (.ok reads) = .error (.returned err))) ∧
    ((∀ err, ReadResult.failure err ∉ reads) →
      ∃ res, ParseCsvContactData Quote (.ok reads) = .ok res) ∧
    (∀ (records : List GoString) (k : Nat), k < records.length →
      ∃ out, truncateField records k = .ok out) := by
  obtain ⟨h1, h2⟩ := runLoop_returns Quote reads { i := 0, result := NewContactCsvData } h5
  refine ⟨?_, ?_, ?_⟩
  · rcases h1 with ⟨st1, hst⟩ | ⟨err, herr⟩
    · exact Or.inl ⟨st1.result, by simp [ParseCsvContactData, hst]⟩
    · exact Or.inr ⟨err, by simp [ParseCsvContactData, herr]⟩
  · intro hno
    obtain ⟨st1, hst⟩ := h2 hno
    exact ⟨st1.result, by simp [ParseCsvContactData, hst]⟩
  · intro records k hk
    exact ⟨_, truncateField_eq records k (records.get ⟨k, hk⟩) (List.get?_eq_get hk)⟩

/-- C10 at a header followed by the row of scenario A. -/
theorem five_field_rows_never_panic_sample :
    ((∃ res, ParseCsvContactData plainQuote
        (.ok [.record sampleHeader, .record rowScenarioA]) = .ok res) ∨
      (∃ err, ParseCsvContactData plainQuote
        (.ok [.record sampleHeader, .record rowScenarioA]) = .error (.returned err))) ∧
    ((∀ err, ReadResult.failure err ∉ [ReadResult.record sampleHeader, .record rowScenarioA]) →
      ∃ res, ParseCsvContactData plainQuote
        (.ok [.record sampleHeader, .record rowScenarioA]) = .ok res) ∧
    (∀ (records : List GoString) (k : Nat), k < records.length →
      ∃ out, truncateField records k = .ok out) :=
  five_field_rows_never_panic plainQuote [.record sampleHeader, .record rowScenarioA]
    (by
      intro r hr
      simp only [List.mem_cons, ReadResult.record.injEq, List.mem_singleton, List.mem_nil_iff,
        or_false] at hr
      rcases hr with rfl | rfl <;> decide)

/-! ## Properties of the watcher -/

/-- C8, evaluation at two failing inputs: the name stays in the claim set
although no output artifact was produced, when the file cannot be stat'ed, and
also when the write of the records fails. -/
theorem claim_kept_without_output :
    (∃ r, processFile plainQuote worldStatFails (ascii "/out") (ascii "/err") (ascii "a.csv")
          {ascii "a.csv"} = .ok r ∧
        ascii "a.csv" ∈ r.fileMap ∧ ¬ outputProduced r) ∧
    (∃ r, processFile plainQuote worldWriteFails (ascii "/out") (ascii "/err") (ascii "a.csv")
          {ascii "a.csv"} = .ok r ∧
        ascii "a.csv" ∈ r.fileMap ∧ ¬ outputProduced r) := by
  refine ⟨⟨_, rfl, Finset.mem_singleton_self _, ?_⟩, ⟨_, rfl, Finset.mem_singleton_self _, ?_⟩⟩
  · rintro ⟨c, hc, _⟩
    cases hc
  · rintro ⟨c, hc, herr⟩
    cases hc
    cases herr

/-- What the goroutine of a claimed name does to the claim set once the stat has
succeeded: the name remains if and only if the parse returned at least one
Record and the Records serialised, which is exactly when the write of the
output was attempted; a produced output implies the name remains; the name is
removed when the file cannot be opened, the parse returns an error, the parse
yields zero Records, or the Records do not serialise; no other name is
touched; and after a removal a later event for the same `.csv` name starts a
goroutine again. -/
theorem claim_kept_iff_records_written (Quote : GoString → GoString) (w : TaskWorld)
    (outputDir errorDir name : GoString) (fileMap : Finset GoString) (mode : Nat)
    (r : TaskResult) (hstat : w.stat = .ok mode) (hclaimed : name ∈ fileMap)
    (hrun : processFile Quote w outputDir errorDir name fileMap = .ok r) :
    (name ∈ r.fileMap ↔
      ∃ contacts byteData, ParseCsvContactData Quote w.file = .ok contacts ∧
        contacts.Records ≠ [] ∧ w.marshalRecords contacts.Records = .ok byteData) ∧
    (name ∈ r.fileMap ↔ ∃ c, r.recordsWrite = some c) ∧
    (outputProduced r → name ∈ r.fileMap) ∧
    (∀ err, w.file = .error err → name ∉ r.fileMap) ∧
    (∀ err, ParseCsvContactData Quote w.file = .error (.returned err) → name ∉ r.fileMap) ∧
    (∀ contacts, ParseCsvContactData Quote w.file = .ok contacts → contacts.Records = [] →
      name ∉ r.fileMap) ∧
    (∀ contacts err, ParseCsvContactData Quote w.file = .ok contacts →
      w.marshalRecords contacts.Records = .error err → name ∉ r.fileMap) ∧
    (r.fileMap = fileMap ∨ r.fileMap = fileMap.erase name) ∧
    (∀ inflight, name ∉ r.fileMap → HasSuffix name (ascii ".csv") = true →
      handleEvent { fileMap := r.fileMap, inflight := inflight } name =
        { fileMap := insert name r.fileMap, inflight := inflight ++ [name] }) := by
  have hmap := processFile_fileMap Quote w outputDir errorDir name fileMap r hrun
  have hkey : (name ∈ r.fileMap ↔
      ∃ contacts byteData, ParseCsvContactData Quote w.file = .ok contacts ∧
        contacts.Records ≠ [] ∧ w.marshalRecords contacts.Records = .ok byteData) ∧
      (name ∈ r.fileMap ↔ ∃ c, r.recordsWrite = some c) := by
    unfold processFile at hrun
    simp only [hstat] at hrun
    cases hp : ParseCsvContactData Quote w.file with
    | error f =>
      cases f with
      | panic p => simp [hp] at hrun
      | returned err =>
        simp only [hp] at hrun
        cases hrun
        simp
    | ok contacts =>
      simp only [hp, writeRecords] at hrun
      by_cases hrec : contacts.Records.length > 0
      · have hne : contacts.Records ≠ [] := List.length_pos.mp hrec
        cases hm : w.marshalRecords contacts.Records with
        | error err =>
          simp only [hrec, if_true, hm] at hrun
          cases hrun
          simp [hm]
        | ok byteData =>
          simp only [hrec, if_true, hm] at hrun
          cases hrun
          simp [hclaimed, hm, hne]
      · have hnil : contacts.Records = [] := by
          cases hc : contacts.Records with
          | nil => rfl
          | cons c cs => simp [hc] at hrec
        simp only [hrec, if_false] at hrun
        cases hrun
        simp [hnil]
  obtain ⟨hk1, hk2⟩ := hkey
  refine ⟨hk1, hk2, ?_, ?_, ?_, ?_, ?_, hmap, ?_⟩
  · rintro ⟨c, hc, _⟩
    exact hk2.mpr ⟨c, hc⟩
  · intro err he hin
    obtain ⟨contacts, _, hp, _⟩ := hk1.mp hin
    simp [ParseCsvContactData, he] at hp
  · intro err he hin
    obtain ⟨contacts, _, hp, _⟩ := hk1.mp hin
    rw [he] at hp
    cases hp
  · intro contacts hp hnil hin
    obtain ⟨contacts1, _, hp1, hne, _⟩ := hk1.mp hin
    rw [hp] at hp1
    cases hp1
    exact hne hnil
  · intro contacts err hp hm hin
    obtain ⟨contacts1, byteData, hp1, _, hm1⟩ := hk1.mp hin
    rw [hp] at hp1
    cases hp1
    rw [hm] at hm1
    cases hm1
  · intro inflight hnot hsuf
    simp [handleEvent, hsuf, hnot]

/-- C9: in every reachable state of the watcher no file name has more than one
started and unfinished goroutine; an event whose name does not end in `.csv`
changes nothing; an event for a claimed name changes nothing and starts
nothing; an event for an unclaimed `.csv` name inserts the name and starts
exactly one goroutine; a finishing goroutine starts none and claims nothing. -/
theorem at_most_one_inflight_task (Quote : GoString → GoString) (outputDir errorDir : GoString) :
    (∀ s, Reachable Quote outputDir errorDir s →
      ∀ name, (s.inflight.filter (fun n => decide (n = name))).length ≤ 1) ∧
    (∀ (s : Watcher) (name : GoString),
      HasSuffix name (ascii ".csv") = false → handleEvent s name = s) ∧
    (∀ (s : Watcher) (name : GoString), name ∈ s.fileMap → handleEvent s name = s) ∧
    (∀ (s : Watcher) (name : GoString),
      HasSuffix name (ascii ".csv") = true → name ∉ s.fileMap →
      handleEvent s name =
        { fileMap := insert name s.fileMap, inflight := s.inflight ++ [name] }) ∧
    (∀ (s s1 : Watcher) (k : Nat) (w : TaskWorld),
      finishTask Quote outputDir errorDir s k w = some s1 →
      s1.inflight = s.inflight.eraseIdx k ∧ s1.fileMap ⊆ s.fileMap) := by
  refine ⟨?_, ?_, ?_, ?_, ?_⟩
  · intro s hs name
    exact nodup_filter_eq_length s.inflight name
      (reachable_consistent Quote outputDir errorDir s hs).1
  · intro s name h
    simp [handleEvent, h]
  · intro s name h
    simp [handleEvent, h]
  · intro s name hsuf hnot
    simp [handleEvent, hsuf, hnot]
  · intro s s1 k w hf
    unfold finishTask at hf
    split at hf
    · cases hf
    · rename_i name hname
      split at hf
      · rename_i r hr
        cases hf
        refine ⟨rfl, ?_⟩
        rcases processFile_fileMap Quote w outputDir errorDir name s.fileMap r hr with e | e
        · simp only [e]; exact Finset.Subset.refl _
        · simp only [e]; exact Finset.erase_subset _ _
      · cases hf

/-- C9 after two events for the same name: the second event starts nothing, and
the name has at most one goroutine. -/
theorem duplicate_event_single_task :
    ((handleEvent (handleEvent Watcher.init (ascii "a.csv")) (ascii "a.csv")).inflight.filter
      (fun n => decide (n = ascii "a.csv"))).length ≤ 1 :=
  (at_most_one_inflight_task plainQuote (ascii "/out") (ascii "/err")).1 _
    (Reachable.step _ _ (Reachable.step _ _ Reachable.init (Step.event _ _)) (Step.event _ _))
    (ascii "a.csv")

end ContactCsv
